import Mathlib

/-!
Shallow embedding of `pyms/Peak/Class.py` (the `Peak` class of PyMassSpec).

Python numbers are modelled as exact rationals (`ℚ`), Python lists as `List`,
`None` as `Option.none`.  Each mutating method of `Peak` is embedded as a
function `Peak → args → Except (PyErr × Peak) Peak`: a raised exception is an
`Except.error` carrying the state of the object at the moment the exception
propagates, so that methods which mutate before raising are modelled
faithfully.  Read-only methods return `Except PyErr result`.
-/

namespace PyMS

/-- The Python exception classes raised by `Peak`'s methods. -/
inductive PyErr where
  | typeError
  | valueError
  | indexError
  | nameError
  | zeroDivisionError
  deriving DecidableEq

instance {ε α : Type} [DecidableEq ε] [DecidableEq α] : DecidableEq (Except ε α) := fun a b =>
  match a, b with
  | .ok x, .ok y => decidable_of_iff (x = y) (by simp)
  | .error x, .error y => decidable_of_iff (x = y) (by simp)
  | .ok _, .error _ => isFalse (by simp)
  | .error _, .ok _ => isFalse (by simp)

/-- Modelled from the spec: `pyms.Spectrum.MassSpectrum` is an external
collaborator whose class body is not under `src/`; per the spec it is an
"ordered mass list + parallel intensity list".  `Peak` only reads and assigns
its `mass_list` and `mass_spec` attributes, so it is modelled as a plain
record of the two parallel lists. -/
structure MassSpectrum where
  mass_list : List ℚ
  mass_spec : List ℚ
  deriving DecidableEq

/-- Modelled from the spec: `pyms.IntensityMatrix.IntensityMatrix` is an
external collaborator; `Peak.find_mass_spectrum` only calls its
`get_index_at_time` and `get_ms_at_index` methods, so it is modelled as the
pair of those two lookup functions. -/
structure IntensityMatrix where
  get_index_at_time : ℚ → ℤ
  get_ms_at_index : ℤ → MassSpectrum

/-- A dynamic Python value, as far as the `Peak` API inspects one:
a number, a `MassSpectrum`, `None`, or a string (standing for the
non-numeric, non-spectrum objects the type checks reject). -/
inductive PyVal where
  | num (q : ℚ)
  | spec (m : MassSpectrum)
  | pynone
  | str (s : String)
  deriving DecidableEq

/-- Python truthiness of a `PyVal` (`if ms:` in `Peak.__init__`):
`0` and `0.0` are falsy, `None` is falsy, `""` is falsy, other strings are
truthy, and a `MassSpectrum` object is truthy. -/
def PyVal.truthy : PyVal → Bool
  | .num q => q ≠ 0
  | .spec _ => true
  | .pynone => false
  | .str s => s ≠ ""

/-- `isinstance(v, (int, float))`. -/
def PyVal.isNum : PyVal → Bool
  | .num _ => true
  | _ => false

/-- `isinstance(v, MassSpectrum)`. -/
def PyVal.isSpec : PyVal → Bool
  | .spec _ => true
  | _ => false

/-- Python `int(q)` on a number: truncation toward zero. -/
def pyint (q : ℚ) : ℤ :=
  if q < 0 then ⌈q⌉ else ⌊q⌋

/-- Round a rational to the nearest integer, ties to even (the rounding used
by Python's fixed-point float formatting, idealised over exact rationals). -/
def roundHalfEven (x : ℚ) : ℤ :=
  let f : ℤ := ⌊x⌋
  let r : ℚ := x - f
  if r < 1/2 then f
  else if 1/2 < r then f + 1
  else if f % 2 = 0 then f else f + 1

/-- Python `f"{x:.2f}"`: the value rendered with two digits after the decimal
point (idealised over exact rationals). -/
def format2f (q : ℚ) : String :=
  let n : ℤ := roundHalfEven (100 * q)
  let a : ℕ := n.natAbs
  let sign : String := if n < 0 then "-" else ""
  sign ++ toString (a / 100) ++ "." ++ (if a % 100 < 10 then "0" else "") ++ toString (a % 100)

/-- Python `min` over a list of numbers; `min([])` raises `ValueError`,
modelled as `none`. -/
def pymin : List ℚ → Option ℚ
  | [] => none
  | x :: xs => some (xs.foldl min x)

/-- Python `max` over a list of numbers; `max([])` raises `ValueError`,
modelled as `none`. -/
def pymax : List ℚ → Option ℚ
  | [] => none
  | x :: xs => some (xs.foldl max x)

/-- The state of a `Peak` object: `_rt`, `_mass_spectrum`, `_ic_mass`,
`_UID`, `_pt_bounds`, `_area`, `_ion_areas` (an insertion-ordered dict,
modelled as an association list) and `is_outlier`. -/
structure Peak where
  rt : ℚ
  mass_spectrum : Option MassSpectrum
  ic_mass : Option ℚ
  UID : String
  pt_bounds : Option (ℤ × ℤ × ℤ)
  area : Option ℚ
  ion_areas : List (PyVal × ℚ)
  is_outlier : Bool
  deriving DecidableEq

/-- The scan in `make_UID` (Class.py lines 392-399): one pass over
`mass_spec` keeping `best`, `best_ii`, `best2_ii`; the running triple is
shifted only when `mass_spec[ii] > best` strictly.  `i` is the index of the
head of the remaining list.  Returns the final `(best, best_ii, best2_ii)`. -/
def scan2 : List ℚ → ℕ → ℚ → ℕ → ℕ → ℚ × ℕ × ℕ
  | [], _, best, b1, b2 => (best, b1, b2)
  | x :: xs, i, best, b1, b2 =>
    if best < x then scan2 xs (i + 1) x i b1
    else scan2 xs (i + 1) best b1 b2

/-- The scan in `get_third_highest_mz` (Class.py lines 311-320): same running
update as `scan2` but also keeping `best3_ii`.  Returns the final
`best3_ii`. -/
def scan3 : List ℚ → ℕ → ℚ → ℕ → ℕ → ℕ → ℕ
  | [], _, _, _, _, b3 => b3
  | x :: xs, i, best, b1, b2, b3 =>
    if best < x then scan3 xs (i + 1) x i b1 b2
    else scan3 xs (i + 1) best b1 b2 b3

/-- The UID string `make_UID` (Class.py lines 378-405) computes from the
current state, or the exception it raises: with a mass spectrum present it
scans `mass_spec` for the top-two intensity indices, evaluates
`mass_spec[best2_ii]` (an `IndexError` on an empty spectrum), divides by
`best` (a `ZeroDivisionError` when no intensity exceeded the initial
`best = 0`), and renders `"{mass1}-{mass2}-{ratio}-{rt:.2f}"`; with only
`ic_mass` present it renders `"{int(ic_mass)}-{rt:.2f}"`; otherwise
`"{rt:.2f}"`. -/
def makeUID (p : Peak) : Except PyErr String :=
  match p.mass_spectrum with
  | some m =>
    let s := scan2 m.mass_spec 0 0 0 0
    match m.mass_spec[s.2.2]? with
    | none => .error .indexError
    | some int2 =>
      if s.1 = 0 then .error .zeroDivisionError
      else
        match m.mass_list[s.2.1]?, m.mass_list[s.2.2]? with
        | some m1, some m2 =>
          .ok (toString (pyint m1) ++ "-" ++ toString (pyint m2) ++ "-"
            ++ toString (pyint (100 * int2 / s.1)) ++ "-" ++ format2f p.rt)
        | _, _ => .error .indexError
  | none =>
    match p.ic_mass with
    | some icm => .ok (toString (pyint icm) ++ "-" ++ format2f p.rt)
    | none => .ok (format2f p.rt)

/-- `Peak.make_UID` as a state transformer: on success `_UID` is assigned the
freshly computed string; if the computation raises, `_UID` keeps its previous
value (the assignment in the source happens after the whole string is
built). -/
def Peak.make_UID (p : Peak) : Except (PyErr × Peak) Peak :=
  match makeUID p with
  | .ok u => .ok { p with UID := u }
  | .error e => .error (e, p)

/-- `Peak.__init__` (Class.py lines 61-99): `rt` must be a number, else
`TypeError`; a truthy `ms` that is neither a `MassSpectrum` nor a number
raises `TypeError`; `minutes` multiplies `rt` by 60; a `MassSpectrum` is
stored in `_mass_spectrum` (with `_ic_mass = None`), anything else is stored
in `_ic_mass`; finally `make_UID()` runs (if it raises, the half-built
object does not escape the constructor).  In the `.str` branch the string is
necessarily `""` (truthy strings were rejected): Python stores it in
`_ic_mass` and `make_UID` then raises `ValueError` from `int("")`. -/
def peakInit (rt ms : PyVal) (minutes : Bool) (outlier : Bool) : Except PyErr Peak :=
  match rt with
  | .num r =>
    if ms.truthy && !ms.isSpec && !ms.isNum then .error .typeError
    else
      let r2 := if minutes then r * 60 else r
      match ms with
      | .spec m =>
        match Peak.make_UID ⟨r2, some m, none, "", none, none, [], outlier⟩ with
        | .ok q => .ok q
        | .error (e, _) => .error e
      | .num q =>
        match Peak.make_UID ⟨r2, none, some q, "", none, none, [], outlier⟩ with
        | .ok q => .ok q
        | .error (e, _) => .error e
      | .pynone =>
        match Peak.make_UID ⟨r2, none, none, "", none, none, [], outlier⟩ with
        | .ok q => .ok q
        | .error (e, _) => .error e
      | .str _ => .error .valueError
  | _ => .error .typeError

/-- `Peak.ic_mass` setter (Class.py lines 336-350): a non-number raises
`TypeError`; otherwise `_ic_mass` is set, `_mass_spectrum` cleared, and the
UID recomputed. -/
def Peak.ic_mass_set (p : Peak) (value : PyVal) : Except (PyErr × Peak) Peak :=
  match value with
  | .num v => Peak.make_UID { p with ic_mass := some v, mass_spectrum := none }
  | _ => .error (.typeError, p)

/-- `Peak.mass_spectrum` setter (Class.py lines 415-429): a non-`MassSpectrum`
raises `TypeError`; otherwise `_mass_spectrum` is set, `_ic_mass` cleared,
and the UID recomputed. -/
def Peak.mass_spectrum_set (p : Peak) (value : PyVal) : Except (PyErr × Peak) Peak :=
  match value with
  | .spec m => Peak.make_UID { p with mass_spectrum := some m, ic_mass := none }
  | _ => .error (.typeError, p)

/-- `Peak.area` setter (Class.py lines 152-167): `TypeError` for a
non-number, `ValueError` for a value `≤ 0`. -/
def Peak.area_set (p : Peak) (value : PyVal) : Except (PyErr × Peak) Peak :=
  match value with
  | .num v =>
    if v ≤ 0 then .error (.valueError, p)
    else .ok { p with area := some v }
  | _ => .error (.typeError, p)

/-- `Peak.bounds` setter (Class.py lines 182-201): requires a 3-element
sequence of integers (the sequence/int type checks are reflected in the
argument type); a wrong length raises `ValueError`. -/
def Peak.bounds_set (p : Peak) (value : List ℤ) : Except (PyErr × Peak) Peak :=
  match value with
  | [a, b, c] => .ok { p with pt_bounds := some (a, b, c) }
  | _ => .error (.valueError, p)

/-- `Peak.set_bounds` (Class.py lines 472-481): delegates to the `bounds`
setter. -/
def Peak.set_bounds (p : Peak) (left apex right : ℤ) : Except (PyErr × Peak) Peak :=
  p.bounds_set [left, apex, right]

/-- Python dict assignment `d[k] = v` on an insertion-ordered association
list: an existing key keeps its position, a new key is appended. -/
def assocSet : List (PyVal × ℚ) → PyVal → ℚ → List (PyVal × ℚ)
  | [], k, v => [(k, v)]
  | (k', v') :: rest, k, v =>
    if k' = k then (k, v) :: rest else (k', v') :: assocSet rest k v

/-- `Peak.set_ion_area` (Class.py lines 483-499): stores `area` under key
`ion` in `_ion_areas` (the `ion : int` and `area` numeric type checks are
reflected in the argument types). -/
def Peak.set_ion_area (p : Peak) (ion : ℤ) (area : ℚ) : Except (PyErr × Peak) Peak :=
  .ok { p with ion_areas := assocSet p.ion_areas (.num (ion : ℚ)) area }

/-- The argument of the `ion_areas` setter: either a dict (an
insertion-ordered key/value list) or some non-dict object. -/
inductive PyDictArg where
  | dict (entries : List (PyVal × ℚ))
  | notDict
  deriving DecidableEq

/-- `Peak.ion_areas` setter (Class.py lines 365-376): the check is
`not isinstance(value, dict) or not isinstance(list(value.keys())[0], (int, float))`.
A non-dict raises `TypeError` from the first disjunct; on a dict the second
disjunct evaluates `list(value.keys())[0]`, which raises `IndexError` on an
empty dict before any `TypeError` can be decided; a dict whose first key is
not a number raises `TypeError`; otherwise the mapping is replaced wholesale
(no UID recomputation). -/
def Peak.ion_areas_set (p : Peak) (value : PyDictArg) : Except (PyErr × Peak) Peak :=
  match value with
  | .notDict => .error (.typeError, p)
  | .dict [] => .error (.indexError, p)
  | .dict ((k, v) :: rest) =>
    if k.isNum then .ok { p with ion_areas := (k, v) :: rest }
    else .error (.typeError, p)

/-- `Peak.find_mass_spectrum` (Class.py lines 516-545): with `from_bounds`
the apex index comes from `_pt_bounds` (a `NameError` when unset), otherwise
from `data.get_index_at_time(rt)`; the spectrum at that index replaces
`_mass_spectrum`, `_ic_mass` is cleared, and the UID is recomputed. -/
def Peak.find_mass_spectrum (p : Peak) (data : IntensityMatrix) (from_bounds : Bool) :
    Except (PyErr × Peak) Peak :=
  if from_bounds then
    match p.pt_bounds with
    | none => .error (.nameError, p)
    | some b =>
      Peak.make_UID { p with
        mass_spectrum := some (data.get_ms_at_index b.2.1), ic_mass := none }
  else
    Peak.make_UID { p with
      mass_spectrum := some (data.get_ms_at_index (data.get_index_at_time p.rt)),
      ic_mass := none }

/-- The pair-building loop of `crop_mass` (Class.py lines 230-238): for each
`ii in range(len(mass_list))`, if `mass_min <= mass_list[ii] <= mass_max`
append `mass_list[ii]` and `mass_spec[ii]` to the new lists; the
`mass_spec[ii]` subscript raises `IndexError` when `mass_spec` is shorter. -/
def cropLoop (ml ms : List ℚ) (lo hi : ℚ) : List ℕ → Except PyErr (List ℚ × List ℚ)
  | [] => .ok ([], [])
  | i :: rest =>
    match ml[i]? with
    | none => .error .indexError
    | some mass =>
      if lo ≤ mass ∧ mass ≤ hi then
        match ms[i]? with
        | none => .error .indexError
        | some v =>
          match cropLoop ml ms lo hi rest with
          | .ok (nl, ns) => .ok (mass :: nl, v :: ns)
          | .error e => .error e
      else cropLoop ml ms lo hi rest

/-- `Peak.crop_mass` (Class.py lines 203-249): requires a mass spectrum
(`ValueError` otherwise), `mass_min < mass_max` (`ValueError`), and
`mass_min`/`mass_max` inside `[min(mass_list), max(mass_list)]`
(`ValueError`; `min` over the empty list also raises `ValueError`).  It then
builds the filtered lists, assigns them into the spectrum, and only after
the assignment raises `ValueError` when the result is empty; otherwise (a
`< 10` points condition merely warns) it recomputes the UID. -/
def Peak.crop_mass (p : Peak) (mass_min mass_max : ℚ) : Except (PyErr × Peak) Peak :=
  match p.mass_spectrum with
  | none => .error (.valueError, p)
  | some m =>
    if mass_max ≤ mass_min then .error (.valueError, p)
    else
      match pymin m.mass_list, pymax m.mass_list with
      | some lo, some hi =>
        if mass_min < lo then .error (.valueError, p)
        else if hi < mass_max then .error (.valueError, p)
        else
          match cropLoop m.mass_list m.mass_spec mass_min mass_max
              (List.range m.mass_list.length) with
          | .error e => .error (e, p)
          | .ok (nl, ns) =>
            let p1 := { p with mass_spectrum := some ⟨nl, ns⟩ }
            if nl = [] then .error (.valueError, p1)
            else Peak.make_UID p1
      | _, _ => .error (.valueError, p)

/-- The nearest-mass scan of `null_mass` (Class.py lines 451-457):
`best` starts at `max(mass_list)` and `ix` at `0`; each index with
`abs(mass_list[ii] - mass) < best` strictly becomes the new `ix`. -/
def nullScan (mass : ℚ) : List ℚ → ℕ → ℚ → ℕ → ℕ
  | [], _, _, ix => ix
  | x :: xs, i, best, ix =>
    if |x - mass| < best then nullScan mass xs (i + 1) |x - mass| i
    else nullScan mass xs (i + 1) best ix

/-- Python list item assignment `l[i] = v`: `IndexError` when `i` is out of
range (negative indices do not arise here). -/
def listSet (l : List ℚ) (i : ℕ) (v : ℚ) : Option (List ℚ) :=
  if i < l.length then some (l.set i v) else none

/-- `Peak.null_mass` (Class.py lines 431-462): requires a mass spectrum
(`NameError` otherwise) and `mass` within `[min(mass_list), max(mass_list)]`
(`IndexError` otherwise; `min`/`max` of an empty list raise `ValueError`);
runs the nearest-mass scan, zeroes `mass_spec[ix]` in place, and recomputes
the UID. -/
def Peak.null_mass (p : Peak) (mass : ℚ) : Except (PyErr × Peak) Peak :=
  match p.mass_spectrum with
  | none => .error (.nameError, p)
  | some m =>
    match pymin m.mass_list, pymax m.mass_list with
    | some lo, some hi =>
      if mass < lo ∨ hi < mass then .error (.indexError, p)
      else
        let ix := nullScan mass m.mass_list 0 hi 0
        match listSet m.mass_spec ix 0 with
        | none => .error (.indexError, p)
        | some ns => Peak.make_UID { p with mass_spectrum := some ⟨m.mass_list, ns⟩ }
    | _, _ => .error (.valueError, p)

/-- The order Python's `sorted` uses on the `(intensity, mass)` tuples built
in `top_ions`: lexicographic, intensity first, mass breaking ties. -/
def lexLe (a b : ℚ × ℚ) : Prop :=
  a.1 < b.1 ∨ (a.1 = b.1 ∧ a.2 ≤ b.2)

instance : DecidableRel lexLe := fun a b =>
  decidable_of_iff (a.1 < b.1 ∨ (a.1 = b.1 ∧ a.2 ≤ b.2)) Iff.rfl

instance : IsTotal (ℚ × ℚ) lexLe :=
  ⟨fun a b => by
    rcases lt_trichotomy a.1 b.1 with h | h | h
    · exact Or.inl (Or.inl h)
    · rcases le_total a.2 b.2 with h2 | h2
      · exact Or.inl (Or.inr ⟨h, h2⟩)
      · exact Or.inr (Or.inr ⟨h.symm, h2⟩)
    · exact Or.inr (Or.inl h)⟩

instance : IsTrans (ℚ × ℚ) lexLe :=
  ⟨fun a b c hab hbc => by
    rcases hab with h1 | ⟨h1, h1'⟩
    · rcases hbc with h2 | ⟨h2, _⟩
      · exact Or.inl (h1.trans h2)
      · exact Or.inl (h2 ▸ h1)
    · rcases hbc with h2 | ⟨h2, h2'⟩
      · exact Or.inl (h1 ▸ h2)
      · exact Or.inr ⟨h1.trans h2, h1'.trans h2'⟩⟩

/-- `Peak.top_ions` (Class.py lines 547-577): requires a mass spectrum
(`ValueError` for a single-ion peak); zips `(intensity, mass)`, sorts the
tuples, slices `sorted_ic[-num_ions:]` (for `num_ions = 0` the slice `[-0:]`
is `[0:]`, the whole list) and returns the second components.  `num_ions`
must be an `int` (reflected in the argument type; the claims only concern
non-negative counts). -/
def Peak.top_ions (p : Peak) (num_ions : ℕ) : Except PyErr (List ℚ) :=
  match p.mass_spectrum with
  | none => .error .valueError
  | some m =>
    let sorted_ic := (m.mass_spec.zip m.mass_list).insertionSort lexLe
    let top_ic := if num_ions = 0 then sorted_ic
      else sorted_ic.drop (sorted_ic.length - num_ions)
    .ok (top_ic.map Prod.snd)

/-- `Peak.get_third_highest_mz` (Class.py lines 302-324): with a mass
spectrum present, runs the `scan3` pass and returns
`int(mass_list[best3_ii])` (an `IndexError` when `mass_list` is too short);
returns `None` when no mass spectrum is present. -/
def Peak.get_third_highest_mz (p : Peak) : Except PyErr (Option ℤ) :=
  match p.mass_spectrum with
  | some m =>
    let b3 := scan3 m.mass_spec 0 0 0 0 0
    match m.mass_list[b3]? with
    | some mz => .ok (some (pyint mz))
    | none => .error .indexError
  | none => .ok none

/-- The mass paired with the third-highest intensity, read off the claim's
words: sort the `(intensity, mass)` pairs ascending and take the third pair
from the top. -/
def thirdHighestMass (m : MassSpectrum) : Option ℚ :=
  let sorted := (m.mass_spec.zip m.mass_list).insertionSort lexLe
  (sorted[sorted.length - 3]?).map Prod.snd

/-- `top_ions` read off the claim's words: pair each intensity with its mass,
sort ascending by intensity with ties broken by mass, take the last
`min n k` pairs of the `k` sorted pairs, and return their masses in that
order. -/
def topIonsClaim (m : MassSpectrum) (n : ℕ) : List ℚ :=
  let pairs := (m.mass_spec.zip m.mass_list).insertionSort lexLe
  ((pairs.drop (pairs.length - min n pairs.length)).map Prod.snd)

/-- One public mutating call on a `Peak` object: `q` is the object's state
afterwards, whether the call returned normally or raised (the error value
carries the state at the moment the exception propagates). -/
def Outcome (r : Except (PyErr × Peak) Peak) (q : Peak) : Prop :=
  r = .ok q ∨ ∃ e, r = .error (e, q)

/-- The transition relation of a `Peak` object: one public mutating method
call, relating the state before the call to the state after it. -/
inductive Step : Peak → Peak → Prop where
  | make_UID {p q} : Outcome p.make_UID q → Step p q
  | ic_mass_set {p q} (v : PyVal) : Outcome (p.ic_mass_set v) q → Step p q
  | mass_spectrum_set {p q} (v : PyVal) : Outcome (p.mass_spectrum_set v) q → Step p q
  | area_set {p q} (v : PyVal) : Outcome (p.area_set v) q → Step p q
  | bounds_set {p q} (v : List ℤ) : Outcome (p.bounds_set v) q → Step p q
  | set_bounds {p q} (l a r : ℤ) : Outcome (p.set_bounds l a r) q → Step p q
  | set_ion_area {p q} (ion : ℤ) (ar : ℚ) : Outcome (p.set_ion_area ion ar) q → Step p q
  | ion_areas_set {p q} (d : PyDictArg) : Outcome (p.ion_areas_set d) q → Step p q
  | find_mass_spectrum {p q} (data : IntensityMatrix) (fb : Bool) :
      Outcome (p.find_mass_spectrum data fb) q → Step p q
  | crop_mass {p q} (lo hi : ℚ) : Outcome (p.crop_mass lo hi) q → Step p q
  | null_mass {p q} (mass : ℚ) : Outcome (p.null_mass mass) q → Step p q

/-- States of a `Peak` object reachable through its public interface:
construction followed by any sequence of public method calls. -/
inductive Reachable : Peak → Prop where
  | init {rt ms minutes outlier p} : peakInit rt ms minutes outlier = .ok p → Reachable p
  | step {p q} : Reachable p → Step p q → Reachable q

/-- At most one of `_mass_spectrum` and `_ic_mass` is non-`None`. -/
def spectralExclusive (p : Peak) : Prop :=
  p.mass_spectrum = none ∨ p.ic_mass = none

lemma outcome_ok {s q : Peak} (h : Outcome (.ok s) q) : q = s := by
  rcases h with h | ⟨e, h⟩ <;> simp_all

lemma outcome_pure_error {e : PyErr} {s q : Peak} (h : Outcome (.error (e, s)) q) : q = s := by
  rcases h with h | ⟨e', h⟩ <;> simp_all

/-- `make_UID` only ever rewrites the `_UID` field: every outcome state
agrees with the receiver on all other fields. -/
lemma make_UID_fields {p q : Peak} (h : Outcome p.make_UID q) :
    q.mass_spectrum = p.mass_spectrum ∧ q.ic_mass = p.ic_mass ∧ q.rt = p.rt ∧
      q.pt_bounds = p.pt_bounds ∧ q.area = p.area ∧ q.ion_areas = p.ion_areas ∧
      q.is_outlier = p.is_outlier := by
  unfold Peak.make_UID at h
  rcases h with h | ⟨e, h⟩ <;> cases hu : makeUID p <;> rw [hu] at h <;> simp_all <;>
    subst h <;> simp

lemma init_exclusive {rt ms : PyVal} {minutes outlier : Bool} {p : Peak}
    (h : peakInit rt ms minutes outlier = .ok p) : spectralExclusive p := by
  cases rt with
  | num r =>
    cases ms with
    | num x =>
      simp only [peakInit] at h
      split at h
      · cases h
      · split at h
        · rename_i q' hq'
          cases h
          exact Or.inl (make_UID_fields (Or.inl hq')).1
        · cases h
    | spec m =>
      simp only [peakInit] at h
      split at h
      · cases h
      · split at h
        · rename_i q' hq'
          cases h
          exact Or.inr (make_UID_fields (Or.inl hq')).2.1
        · cases h
    | pynone =>
      simp only [peakInit] at h
      split at h
      · cases h
      · split at h
        · rename_i q' hq'
          cases h
          exact Or.inl (make_UID_fields (Or.inl hq')).1
        · cases h
    | str s =>
      simp only [peakInit] at h
      split at h <;> cases h
  | spec m => simp only [peakInit] at h; cases h
  | pynone => simp only [peakInit] at h; cases h
  | str s => simp only [peakInit] at h; cases h

lemma step_exclusive {p q : Peak} (s : Step p q) (hp : spectralExclusive p) :
    spectralExclusive q := by
  cases s with
  | make_UID h =>
    have hf := make_UID_fields h
    unfold spectralExclusive at *
    rw [hf.1, hf.2.1]; exact hp
  | ic_mass_set v h =>
    cases v <;> simp only [Peak.ic_mass_set] at h
    case num x =>
      have hf := make_UID_fields h
      exact Or.inl hf.1
    all_goals exact (outcome_pure_error h) ▸ hp
  | mass_spectrum_set v h =>
    cases v <;> simp only [Peak.mass_spectrum_set] at h
    case spec m =>
      have hf := make_UID_fields h
      exact Or.inr hf.2.1
    all_goals exact (outcome_pure_error h) ▸ hp
  | area_set v h =>
    cases v <;> simp only [Peak.area_set] at h
    case num x =>
      split at h
      · exact (outcome_pure_error h) ▸ hp
      · have := outcome_ok h
        subst this
        exact hp
    all_goals exact (outcome_pure_error h) ▸ hp
  | bounds_set v h =>
    unfold Peak.bounds_set at h
    split at h <;>
      first
        | (exact (outcome_pure_error h) ▸ hp)
        | (exact outcome_ok h ▸ hp)
  | set_bounds l a r h =>
    unfold Peak.set_bounds Peak.bounds_set at h
    split at h <;>
      first
        | (exact (outcome_pure_error h) ▸ hp)
        | (exact outcome_ok h ▸ hp)
  | set_ion_area ion ar h =>
    unfold Peak.set_ion_area at h
    have := outcome_ok h; subst this; exact hp
  | ion_areas_set d h =>
    unfold Peak.ion_areas_set at h
    repeat' split at h
    all_goals
      first
        | (exact (outcome_pure_error h) ▸ hp)
        | (exact outcome_ok h ▸ hp)
  | find_mass_spectrum data fb h =>
    unfold Peak.find_mass_spectrum at h
    repeat' split at h
    all_goals
      first
        | (exact (outcome_pure_error h) ▸ hp)
        | (exact Or.inr (make_UID_fields h).2.1)
  | crop_mass lo hi h =>
    unfold Peak.crop_mass at h
    cases hms : p.mass_spectrum <;> rw [hms] at h
    · exact (outcome_pure_error h) ▸ hp
    · have hic : p.ic_mass = none := by
        rcases hp with hp | hp
        · rw [hms] at hp; cases hp
        · exact hp
      right
      repeat' split at h
      all_goals
        first
          | (exact (outcome_pure_error h) ▸ hic)
          | (exact ((make_UID_fields h).2.1).trans hic)
  | null_mass mass h =>
    simp only [Peak.null_mass] at h
    cases hms : p.mass_spectrum <;> rw [hms] at h
    · exact (outcome_pure_error h) ▸ hp
    · have hic : p.ic_mass = none := by
        rcases hp with hp | hp
        · rw [hms] at hp; cases hp
        · exact hp
      right
      repeat' split at h
      all_goals
        first
          | (exact (outcome_pure_error h) ▸ hic)
          | (exact ((make_UID_fields h).2.1).trans hic)

/-- C3: after construction and after every public operation on a `Peak`
(each setter and mutating method, whether it returns normally or raises),
at most one of `mass_spectrum` and `ic_mass` is non-`None`: the
mutual-exclusion invariant holds in every reachable state. -/
theorem reachable_spectral_mutual_exclusion :
    ∀ p : Peak, Reachable p → p.mass_spectrum = none ∨ p.ic_mass = none := by
  intro p h
  induction h with
  | init h0 => exact init_exclusive h0
  | step _ s ih => exact step_exclusive s ih

/-- A single-ion peak as `Peak(rt=5, ms=42)` constructs it. -/
def singleIonPeak : Peak := ⟨5, none, some 42, "42-5.00", none, none, [], false⟩

unseal Rat.add Rat.mul Rat.sub Rat.inv in
theorem reachable_spectral_mutual_exclusion_witness :
    singleIonPeak.mass_spectrum = none ∨ singleIonPeak.ic_mass = none :=
  reachable_spectral_mutual_exclusion singleIonPeak
    (@Reachable.init (.num 5) (.num 42) false false singleIonPeak (by decide))

lemma scan2_fst (l : List ℚ) : ∀ i best b1 b2, (scan2 l i best b1 b2).1 = l.foldl max best := by
  induction l with
  | nil => intro i best b1 b2; rfl
  | cons x xs ih =>
    intro i best b1 b2
    simp only [scan2, List.foldl_cons]
    split
    · rename_i hlt
      rw [ih, max_eq_right hlt.le]
    · rename_i hlt
      rw [ih, max_eq_left (not_lt.1 hlt)]

lemma le_foldl_max (l : List ℚ) : ∀ b : ℚ, b ≤ l.foldl max b := by
  induction l with
  | nil => intro b; exact le_refl b
  | cons x xs ih => intro b; exact (le_max_left b x).trans (ih (max b x))

lemma mem_le_foldl_max (l : List ℚ) : ∀ (b x : ℚ), x ∈ l → x ≤ l.foldl max b := by
  induction l with
  | nil => intro b x hx; cases hx
  | cons y ys ih =>
    intro b x hx
    rcases List.mem_cons.1 hx with rfl | hx
    · exact (le_max_right b x).trans (le_foldl_max ys (max b x))
    · exact ih (max b y) x hx

lemma foldl_max_le (l : List ℚ) : ∀ b c : ℚ, b ≤ c → (∀ x ∈ l, x ≤ c) → l.foldl max b ≤ c := by
  induction l with
  | nil => intro b c hb _; exact hb
  | cons y ys ih =>
    intro b c hb hl
    exact ih (max b y) c (max_le hb (hl y (List.mem_cons_self y ys)))
      (fun x hx => hl x (List.mem_cons_of_mem y hx))

lemma foldl_max_mem (l : List ℚ) : ∀ b : ℚ, l.foldl max b ∈ b :: l := by
  induction l with
  | nil => intro b; exact List.mem_singleton.2 rfl
  | cons y ys ih =>
    intro b
    simp only [List.foldl_cons]
    rcases List.mem_cons.1 (ih (max b y)) with h | h
    · rw [h]
      rcases max_choice b y with hm | hm <;> rw [hm]
      · exact List.mem_cons_self _ _
      · exact List.mem_cons_of_mem _ (List.mem_cons_self _ _)
    · exact List.mem_cons_of_mem _ (List.mem_cons_of_mem _ h)

lemma pymax_le {l : List ℚ} {v : ℚ} (h : pymax l = some v) : ∀ x ∈ l, x ≤ v := by
  cases l with
  | nil => cases h
  | cons y ys =>
    simp only [pymax, Option.some.injEq] at h
    intro x hx
    rcases List.mem_cons.1 hx with rfl | hx
    · exact h ▸ le_foldl_max ys x
    · exact h ▸ mem_le_foldl_max ys y x hx

lemma pymax_mem {l : List ℚ} {v : ℚ} (h : pymax l = some v) : v ∈ l := by
  cases l with
  | nil => cases h
  | cons y ys =>
    simp only [pymax, Option.some.injEq] at h
    exact h ▸ foldl_max_mem ys y

lemma foldl_min_le (l : List ℚ) : ∀ b : ℚ, l.foldl min b ≤ b := by
  induction l with
  | nil => intro b; exact le_refl b
  | cons x xs ih => intro b; exact (ih (min b x)).trans (min_le_left b x)

lemma foldl_min_le_mem (l : List ℚ) : ∀ (b x : ℚ), x ∈ l → l.foldl min b ≤ x := by
  induction l with
  | nil => intro b x hx; cases hx
  | cons y ys ih =>
    intro b x hx
    rcases List.mem_cons.1 hx with rfl | hx
    · exact (foldl_min_le ys (min b x)).trans (min_le_right b x)
    · exact ih (min b y) x hx

lemma pymin_le {l : List ℚ} {v : ℚ} (h : pymin l = some v) : ∀ x ∈ l, v ≤ x := by
  cases l with
  | nil => cases h
  | cons y ys =>
    simp only [pymin, Option.some.injEq] at h
    intro x hx
    rcases List.mem_cons.1 hx with rfl | hx
    · exact h ▸ foldl_min_le ys x
    · exact h ▸ foldl_min_le_mem ys y x hx

lemma scan2_bounds (l : List ℚ) : ∀ (i : ℕ) (best : ℚ) (b1 b2 n : ℕ),
    i + l.length ≤ n → b1 < n → b2 < n →
    (scan2 l i best b1 b2).2.1 < n ∧ (scan2 l i best b1 b2).2.2 < n := by
  induction l with
  | nil => intro i best b1 b2 n _ h1 h2; exact ⟨h1, h2⟩
  | cons x xs ih =>
    intro i best b1 b2 n hn h1 h2
    simp only [List.length_cons] at hn
    simp only [scan2]
    split
    · exact ih (i + 1) x i b1 n (by omega) (by omega) h1
    · exact ih (i + 1) best b1 b2 n (by omega) h1 h2

lemma makeUID_ok_of_pos {p : Peak} {m : MassSpectrum} (hm : p.mass_spectrum = some m)
    (hlen : m.mass_list.length = m.mass_spec.length) (hne : m.mass_spec ≠ [])
    (hpos : ∃ x ∈ m.mass_spec, 0 < x) : ∃ s, makeUID p = .ok s := by
  have hlen0 : 0 < m.mass_spec.length := List.length_pos.2 hne
  obtain ⟨hb1, hb2⟩ :=
    scan2_bounds m.mass_spec 0 0 0 0 m.mass_spec.length (by omega) hlen0 hlen0
  have hb1' : (scan2 m.mass_spec 0 0 0 0).2.1 < m.mass_list.length := by rw [hlen]; exact hb1
  have hb2' : (scan2 m.mass_spec 0 0 0 0).2.2 < m.mass_list.length := by rw [hlen]; exact hb2
  obtain ⟨x, hx, hxpos⟩ := hpos
  have hbest : 0 < (scan2 m.mass_spec 0 0 0 0).1 := by
    rw [scan2_fst]
    exact lt_of_lt_of_le hxpos (mem_le_foldl_max m.mass_spec 0 x hx)
  simp only [makeUID, hm, List.getElem?_eq_getElem hb2, List.getElem?_eq_getElem hb1',
    List.getElem?_eq_getElem hb2', if_neg (ne_of_gt hbest)]
  exact ⟨_, rfl⟩

lemma makeUID_zero_division {p : Peak} {m : MassSpectrum} (hm : p.mass_spectrum = some m)
    (hne : m.mass_spec ≠ []) (hmax : pymax m.mass_spec = some 0) :
    makeUID p = .error .zeroDivisionError := by
  have hlen0 : 0 < m.mass_spec.length := List.length_pos.2 hne
  obtain ⟨hb1, hb2⟩ :=
    scan2_bounds m.mass_spec 0 0 0 0 m.mass_spec.length (by omega) hlen0 hlen0
  have hbest0 : (scan2 m.mass_spec 0 0 0 0).1 = 0 := by
    rw [scan2_fst]
    exact le_antisymm (foldl_max_le _ 0 0 le_rfl (pymax_le hmax)) (le_foldl_max _ 0)
  simp [makeUID, hm, List.getElem?_eq_getElem hb2, hbest0]

/-- C4: `make_UID` divides only when some intensity is strictly positive:
with at least one positive intensity the running `best` is positive at the
ratio computation and `make_UID` succeeds; with a (non-empty) spectrum whose
maximum intensity is exactly 0, the division `mass_spec[best2_ii] / best`
divides by zero. -/
theorem make_UID_division_safety :
    ∀ (p : Peak) (m : MassSpectrum), p.mass_spectrum = some m →
      m.mass_list.length = m.mass_spec.length → m.mass_spec ≠ [] →
      ((∃ x ∈ m.mass_spec, 0 < x) → ∃ s, makeUID p = .ok s) ∧
      (pymax m.mass_spec = some 0 → makeUID p = .error .zeroDivisionError) := by
  intro p m hm hlen hne
  exact ⟨fun hpos => makeUID_ok_of_pos hm hlen hne hpos,
    fun hmax => makeUID_zero_division hm hne hmax⟩

/-- A peak whose spectrum has a positive maximum intensity. -/
def specPeakPos : Peak := ⟨0, some ⟨[10, 20], [5, 3]⟩, none, "10-10-100-0.00", none, none, [], false⟩

/-- A peak whose spectrum's maximum intensity is exactly 0. -/
def specPeakZero : Peak := ⟨0, some ⟨[10, 20], [0, 0]⟩, none, "u", none, none, [], false⟩

unseal Rat.add Rat.mul Rat.sub Rat.inv in
theorem make_UID_division_safety_witness :
    (∃ s, makeUID specPeakPos = .ok s) ∧
      makeUID specPeakZero = .error .zeroDivisionError :=
  ⟨(make_UID_division_safety specPeakPos ⟨[10, 20], [5, 3]⟩ rfl (by decide) (by decide)).1
      ⟨5, by decide, by decide⟩,
    (make_UID_division_safety specPeakZero ⟨[10, 20], [0, 0]⟩ rfl (by decide) (by decide)).2
      (by decide)⟩

/-- C7: the UID is a deterministic pure function of the spectral state —
two peaks agreeing on `rt`, `mass_spectrum` and `ic_mass` get the same UID
computation — and `make_UID` is idempotent: a second call on the unchanged
object returns the same state (hence the same UID string). -/
theorem make_UID_pure_and_idempotent :
    (∀ p q : Peak, p.rt = q.rt → p.mass_spectrum = q.mass_spectrum →
      p.ic_mass = q.ic_mass → makeUID p = makeUID q) ∧
    (∀ p q : Peak, p.make_UID = .ok q → q.make_UID = .ok q) := by
  have hpure : ∀ p q : Peak, p.rt = q.rt → p.mass_spectrum = q.mass_spectrum →
      p.ic_mass = q.ic_mass → makeUID p = makeUID q := by
    intro p q h1 h2 h3
    unfold makeUID
    rw [h1, h2, h3]
  refine ⟨hpure, ?_⟩
  intro p q h
  unfold Peak.make_UID at h ⊢
  cases hu : makeUID p <;> rw [hu] at h
  · cases h
  · rename_i u
    cases h
    rw [hpure { p with UID := u } p rfl rfl rfl, hu]

/-- A single-ion peak state whose stored UID field is stale. -/
def icPeakStale : Peak := ⟨5, none, some 42, "stale", some (1, 2, 3), some 7, [], true⟩

unseal Rat.add Rat.mul Rat.sub Rat.inv in
theorem make_UID_pure_and_idempotent_witness :
    makeUID singleIonPeak = makeUID icPeakStale ∧
      Peak.make_UID singleIonPeak = .ok singleIonPeak :=
  ⟨make_UID_pure_and_idempotent.1 singleIonPeak icPeakStale rfl rfl rfl,
    make_UID_pure_and_idempotent.2 singleIonPeak singleIonPeak (by decide)⟩

/-- C10: assigning an empty dict to `Peak.ion_areas` raises `IndexError`
(from `list(value.keys())[0]` inside the validation check), not `TypeError`
and not a successful assignment, and the object's state — in particular the
previously stored ion-areas mapping — is unchanged. -/
theorem ion_areas_set_empty_dict :
    ∀ p : Peak, p.ion_areas_set (.dict []) = .error (.indexError, p) := by
  intro p
  rfl

unseal Rat.add Rat.mul Rat.sub Rat.inv in
/-- C5 (amended): `Peak.__init__` raises `TypeError` for a non-numeric `rt`;
it raises `TypeError` for every *truthy* `ms` that is neither a number nor a
`MassSpectrum`; but a *falsy* such `ms` (the empty string) slips past the
check, is stored in `_ic_mass`, and construction then fails with
`ValueError` from `int("")` inside `make_UID`; and
`Peak(rt=1.5, ms=100, minutes=True)` yields `rt == 90.0`, `ic_mass == 100`,
`mass_spectrum is None`. -/
theorem peak_init_validation :
    (∀ (rt ms : PyVal) (minutes outlier : Bool), rt.isNum = false →
        peakInit rt ms minutes outlier = .error .typeError) ∧
    (∀ (r : ℚ) (ms : PyVal) (minutes outlier : Bool),
        ms.truthy = true → ms.isSpec = false → ms.isNum = false →
        peakInit (.num r) ms minutes outlier = .error .typeError) ∧
    (∀ (r : ℚ) (minutes outlier : Bool),
        peakInit (.num r) (.str "") minutes outlier = .error .valueError) ∧
    peakInit (.num (3 / 2)) (.num 100) true false =
      .ok ⟨90, none, some 100, "100-90.00", none, none, [], false⟩ := by
  refine ⟨?_, ?_, ?_, ?_⟩
  · intro rt ms minutes outlier h
    cases rt with
    | num r => cases h
    | spec m => rfl
    | pynone => rfl
    | str s => rfl
  · intro r ms minutes outlier h1 h2 h3
    simp [peakInit, h1, h2, h3]
  · intro r minutes outlier
    simp [peakInit, PyVal.truthy]
  · decide

unseal Rat.add Rat.mul Rat.sub Rat.inv in
theorem peak_init_validation_witness :
    peakInit (.str "x") (.num 1) false false = .error .typeError ∧
      peakInit (.num 0) (.str "abc") false false = .error .typeError :=
  ⟨peak_init_validation.1 (.str "x") (.num 1) false false (by decide),
    peak_init_validation.2.1 0 (.str "abc") false false (by decide) (by decide) (by decide)⟩

unseal Rat.add Rat.mul Rat.sub Rat.inv in
theorem peak_init_falsy_ms_counterexample :
    peakInit (.num 0) (.str "") false false = .error .valueError ∧
      PyErr.valueError ≠ PyErr.typeError :=
  ⟨by decide, by decide⟩

/-- C1 (amended): when `crop_mass` raises the "mass spectrum is now empty"
`ValueError`, the UID is unchanged (the emptiness check precedes
`make_UID`), but the peak is *not* unchanged: the spectrum's
`mass_list`/`mass_spec` were already replaced by the empty filtered lists
before the check ran. -/
theorem crop_mass_empty_result_state :
    ∀ (p : Peak) (m : MassSpectrum) (lo hi mn mx : ℚ),
      p.mass_spectrum = some m →
      mn < mx → pymin m.mass_list = some lo → pymax m.mass_list = some hi →
      lo ≤ mn → mx ≤ hi →
      cropLoop m.mass_list m.mass_spec mn mx (List.range m.mass_list.length) = .ok ([], []) →
      p.crop_mass mn mx = .error (.valueError, { p with mass_spectrum := some ⟨[], []⟩ }) ∧
        ({ p with mass_spectrum := some ⟨[], []⟩ }).UID = p.UID := by
  intro p m lo hi mn mx hm hlt hlo hhi h1 h2 hloop
  constructor
  · simp only [Peak.crop_mass, hm]
    rw [if_neg (not_le.2 hlt)]
    simp only [hlo, hhi]
    rw [if_neg (not_lt.2 h1), if_neg (not_lt.2 h2)]
    simp only [hloop]
    simp
  · rfl

/-- A peak constructed as `Peak(rt=0, ms=MassSpectrum([1, 10], [5, 5]))`. -/
def cropPeak : Peak := ⟨0, some ⟨[1, 10], [5, 5]⟩, none, "1-1-100-0.00", none, none, [], false⟩

unseal Rat.add Rat.mul Rat.sub Rat.inv in
theorem crop_mass_empty_result_counterexample :
    peakInit (.num 0) (.spec ⟨[1, 10], [5, 5]⟩) false false = .ok cropPeak ∧
      cropPeak.crop_mass 2 9 =
        .error (.valueError, { cropPeak with mass_spectrum := some ⟨[], []⟩ }) ∧
      ({ cropPeak with mass_spectrum := some ⟨[], []⟩ }).mass_spectrum ≠ cropPeak.mass_spectrum :=
  ⟨by decide, by decide, by decide⟩

unseal Rat.add Rat.mul Rat.sub Rat.inv in
theorem crop_mass_empty_result_state_witness :
    cropPeak.crop_mass 2 9 =
        .error (.valueError, { cropPeak with mass_spectrum := some ⟨[], []⟩ }) ∧
      ({ cropPeak with mass_spectrum := some ⟨[], []⟩ }).UID = cropPeak.UID :=
  crop_mass_empty_result_state cropPeak ⟨[1, 10], [5, 5]⟩ 1 10 2 9 rfl (by decide) (by decide)
    (by decide) (by decide) (by decide) (by decide)

lemma scan3_no_update (l : List ℚ) : ∀ (i : ℕ) (best : ℚ) (b1 b2 b3 : ℕ),
    (∀ x ∈ l, x ≤ best) → scan3 l i best b1 b2 b3 = b3 := by
  induction l with
  | nil => intros; rfl
  | cons y ys ih =>
    intro i best b1 b2 b3 h
    simp only [scan3]
    rw [if_neg (not_lt.2 (h y (List.mem_cons_self y ys)))]
    exact ih _ _ _ _ _ (fun x hx => h x (List.mem_cons_of_mem y hx))

lemma scan3_one_more_update (a b : ℚ) (l : List ℚ) :
    ∀ (i : ℕ) (best : ℚ) (b1 b2 b3 : ℕ), (∀ x ∈ l, x = a ∨ x = b) →
      (best = a ∨ best = b) →
      scan3 l i best b1 b2 b3 = b3 ∨ scan3 l i best b1 b2 b3 = b2 := by
  induction l with
  | nil => intros; exact Or.inl rfl
  | cons y ys ih =>
    intro i best b1 b2 b3 hmem hbest
    simp only [scan3]
    split
    · rename_i hlt
      have hall : ∀ x ∈ ys, x ≤ y := by
        intro x hx
        rcases hmem x (List.mem_cons_of_mem y hx) with rfl | rfl <;>
          rcases hmem y (List.mem_cons_self y ys) with hy | hy <;>
          rcases hbest with hb | hb <;>
          rw [hy] at hlt ⊢ <;> rw [hb] at hlt <;> linarith
      exact Or.inr (scan3_no_update ys _ _ _ _ _ hall)
    · exact ih _ _ _ _ _ (fun x hx => hmem x (List.mem_cons_of_mem y hx)) hbest

lemma scan3_two_values (a b : ℚ) (l : List ℚ) :
    ∀ (i : ℕ) (best : ℚ) (b1 b2 b3 : ℕ), (∀ x ∈ l, x = a ∨ x = b) →
      scan3 l i best b1 b2 b3 = b3 ∨ scan3 l i best b1 b2 b3 = b2 ∨
        scan3 l i best b1 b2 b3 = b1 := by
  induction l with
  | nil => intros; exact Or.inl rfl
  | cons y ys ih =>
    intro i best b1 b2 b3 hmem
    simp only [scan3]
    split
    · rcases scan3_one_more_update a b ys (i + 1) y i b1 b2
          (fun x hx => hmem x (List.mem_cons_of_mem y hx))
          (hmem y (List.mem_cons_self y ys)) with h | h
      · exact Or.inr (Or.inl h)
      · exact Or.inr (Or.inr h)
    · exact ih _ _ _ _ _ (fun x hx => hmem x (List.mem_cons_of_mem y hx))

/-- C2 (amended): `get_third_highest_mz` returns `None` when no mass
spectrum is present, and with fewer than 3 distinct intensities (at most two
values occur in `mass_spec`) it returns the mass at index 0 without failing;
the scan shifts its running indices only when a new strict maximum is seen
(ties first-seen), so its result is not in general the mass of the
third-highest intensity. -/
theorem get_third_highest_mz_behavior :
    (∀ p : Peak, p.mass_spectrum = none → p.get_third_highest_mz = .ok none) ∧
    (∀ (p : Peak) (m : MassSpectrum) (a b : ℚ), p.mass_spectrum = some m →
      (∀ x ∈ m.mass_spec, x = a ∨ x = b) → m.mass_list ≠ [] →
      ∃ z, m.mass_list[0]? = some z ∧
        p.get_third_highest_mz = .ok (some (pyint z))) := by
  constructor
  · intro p h
    simp [Peak.get_third_highest_mz, h]
  · intro p m a b hm hmem hne
    have h0 : scan3 m.mass_spec 0 0 0 0 0 = 0 := by
      rcases scan3_two_values a b m.mass_spec 0 0 0 0 0 hmem with h | h | h <;> exact h
    have hlen : 0 < m.mass_list.length := List.length_pos.2 hne
    refine ⟨_, List.getElem?_eq_getElem hlen, ?_⟩
    simp [Peak.get_third_highest_mz, hm, h0, List.getElem?_eq_getElem hlen]

unseal Rat.add Rat.mul Rat.sub Rat.inv in
theorem get_third_highest_mz_behavior_witness :
    singleIonPeak.get_third_highest_mz = .ok none ∧
      (∃ z, (MassSpectrum.mk [10, 20] [5, 3]).mass_list[0]? = some z ∧
        specPeakPos.get_third_highest_mz = .ok (some (pyint z))) :=
  ⟨get_third_highest_mz_behavior.1 singleIonPeak rfl,
    get_third_highest_mz_behavior.2 specPeakPos ⟨[10, 20], [5, 3]⟩ 5 3 rfl
      (by decide) (by decide)⟩

/-- A peak whose spectrum's intensities are strictly decreasing. -/
def thirdPeak : Peak := ⟨0, some ⟨[10, 20, 30], [3, 2, 1]⟩, none, "u", none, none, [], false⟩

unseal Rat.add Rat.mul Rat.sub Rat.inv in
theorem get_third_highest_mz_counterexample :
    thirdPeak.get_third_highest_mz = .ok (some 10) ∧
      (thirdHighestMass ⟨[10, 20, 30], [3, 2, 1]⟩).map pyint = some 30 ∧
      thirdPeak.get_third_highest_mz ≠
        .ok ((thirdHighestMass ⟨[10, 20, 30], [3, 2, 1]⟩).map pyint) :=
  ⟨by decide, by decide, by decide⟩

lemma nullScan_cases (mass : ℚ) (l : List ℚ) :
    ∀ (i : ℕ) (best : ℚ) (ix : ℕ),
      ((∀ x ∈ l, best ≤ |x - mass|) ∧ nullScan mass l i best ix = ix) ∨
      (∃ (k : ℕ) (hk : k < l.length),
        nullScan mass l i best ix = i + k ∧
        |l.get ⟨k, hk⟩ - mass| < best ∧
        (∀ (j : ℕ) (hj : j < l.length),
          |l.get ⟨k, hk⟩ - mass| ≤ |l.get ⟨j, hj⟩ - mass|) ∧
        (∀ (j : ℕ) (hj : j < l.length), j < k →
          |l.get ⟨k, hk⟩ - mass| < |l.get ⟨j, hj⟩ - mass|)) := by
  induction l with
  | nil =>
    intro i best ix
    exact Or.inl ⟨fun x hx => absurd hx (List.not_mem_nil x), rfl⟩
  | cons y ys ih =>
    intro i best ix
    simp only [nullScan]
    split
    · rename_i hlt
      rcases ih (i + 1) |y - mass| i with ⟨hno, heq⟩ | ⟨k, hk, heq, hk2, hmin, hstrict⟩
      · refine Or.inr ⟨0, by simp, ?_, by simpa using hlt, ?_, ?_⟩
        · rw [heq]; omega
        · intro j hj
          cases j with
          | zero => simp
          | succ j' =>
            have hj' : j' < ys.length := by simpa using hj
            simpa using hno (ys.get ⟨j', hj'⟩) (List.get_mem ys j' hj')
        · intro j hj hj0
          omega
      · refine Or.inr ⟨k + 1, by simpa using hk, ?_, by simpa using hk2.trans hlt, ?_, ?_⟩
        · rw [heq]; omega
        · intro j hj
          cases j with
          | zero => simpa using hk2.le
          | succ j' => simpa using hmin j' (by simpa using hj)
        · intro j hj hjk
          cases j with
          | zero => simpa using hk2
          | succ j' => simpa using hstrict j' (by simpa using hj) (by omega)
    · rename_i hge
      rcases ih (i + 1) best ix with ⟨hno, heq⟩ | ⟨k, hk, heq, hk2, hmin, hstrict⟩
      · refine Or.inl ⟨?_, heq⟩
        intro x hx
        rcases List.mem_cons.1 hx with rfl | hx
        · exact not_lt.1 hge
        · exact hno x hx
      · refine Or.inr ⟨k + 1, by simpa using hk, ?_, by simpa using hk2, ?_, ?_⟩
        · rw [heq]; omega
        · intro j hj
          cases j with
          | zero => simpa using (hk2.trans_le (not_lt.1 hge)).le
          | succ j' => simpa using hmin j' (by simpa using hj)
        · intro j hj hjk
          cases j with
          | zero => simpa using hk2.trans_le (not_lt.1 hge)
          | succ j' => simpa using hstrict j' (by simpa using hj) (by omega)

unseal Rat.add Rat.mul Rat.sub Rat.inv in
/-- C8 (amended): for a peak with a mass spectrum, a target mass outside
`[min(mass_list), max(mass_list)]` fails with an `IndexError` and the state
is unchanged; for a target mass inside the range, provided some entry's
absolute difference to the target is smaller than `max(mass_list)` (the
scan's initial sentinel — always true when the masses are positive) and the
zeroed spectrum keeps a positive intensity (so the final `make_UID` does not
divide by zero), `null_mass` zeroes in place the intensity of the first
entry of minimal absolute difference to the target (ties first-seen, strict
`<`) and recomputes the UID.  Without the sentinel proviso the scan can
leave `ix` at 0 and zero the wrong entry (see the counterexample). -/
theorem null_mass_nearest :
    ∀ (p : Peak) (m : MassSpectrum) (mass lo hi : ℚ),
      p.mass_spectrum = some m →
      m.mass_list.length = m.mass_spec.length →
      pymin m.mass_list = some lo → pymax m.mass_list = some hi →
      ((mass < lo ∨ hi < mass) → p.null_mass mass = .error (.indexError, p)) ∧
      (lo ≤ mass → mass ≤ hi →
        (∃ x ∈ m.mass_list, |x - mass| < hi) →
        (∃ x ∈ m.mass_spec.set (nullScan mass m.mass_list 0 hi 0) 0, 0 < x) →
        (∃ hix : nullScan mass m.mass_list 0 hi 0 < m.mass_list.length,
          (∀ (j : ℕ) (hj : j < m.mass_list.length),
            |m.mass_list.get ⟨nullScan mass m.mass_list 0 hi 0, hix⟩ - mass| ≤
              |m.mass_list.get ⟨j, hj⟩ - mass|) ∧
          (∀ (j : ℕ) (hj : j < m.mass_list.length), j < nullScan mass m.mass_list 0 hi 0 →
            |m.mass_list.get ⟨nullScan mass m.mass_list 0 hi 0, hix⟩ - mass| <
              |m.mass_list.get ⟨j, hj⟩ - mass|)) ∧
        (∃ u, p.null_mass mass = .ok { p with
          mass_spectrum := some ⟨m.mass_list, m.mass_spec.set (nullScan mass m.mass_list 0 hi 0) 0⟩,
          UID := u })) := by
  intro p m mass lo hi hm hlen hlo hhi
  constructor
  · intro hout
    simp only [Peak.null_mass, hm, hlo, hhi]
    rw [if_pos hout]
  intro h1 h2 hupd hpos
  rcases nullScan_cases mass m.mass_list 0 hi 0 with ⟨hno, _⟩ | ⟨k, hk, heq, _, hmin, hstrict⟩
  · obtain ⟨x, hx, hxlt⟩ := hupd
    exact absurd hxlt (not_lt.2 (hno x hx))
  · have hkix : nullScan mass m.mass_list 0 hi 0 = k := by omega
    constructor
    · rw [hkix]
      exact ⟨hk, hmin, fun j hj hjk => hstrict j hj hjk⟩
    · have hkspec : k < m.mass_spec.length := by rw [← hlen]; exact hk
      have hset : listSet m.mass_spec (nullScan mass m.mass_list 0 hi 0) 0 =
          some (m.mass_spec.set (nullScan mass m.mass_list 0 hi 0) 0) := by
        rw [hkix]
        exact if_pos hkspec
      have hnemp : m.mass_spec.set (nullScan mass m.mass_list 0 hi 0) 0 ≠ [] := by
        have : (m.mass_spec.set (nullScan mass m.mass_list 0 hi 0) 0).length =
            m.mass_spec.length := List.length_set ..
        intro hcontra
        rw [hcontra] at this
        simp at this
        omega
      obtain ⟨u, hu⟩ := @makeUID_ok_of_pos
        { p with mass_spectrum := some (MassSpectrum.mk m.mass_list (m.mass_spec.set (nullScan mass m.mass_list 0 hi 0) 0)) }
        (MassSpectrum.mk m.mass_list (m.mass_spec.set (nullScan mass m.mass_list 0 hi 0) 0))
        rfl (by simpa using hlen) hnemp hpos
      refine ⟨u, ?_⟩
      simp only [Peak.null_mass, hm, hlo, hhi,
        if_neg (not_or.2 ⟨not_lt.2 h1, not_lt.2 h2⟩), hset, Peak.make_UID, hu]

/-- A peak whose spectrum has only non-positive masses (physically
impossible, but accepted by the code). -/
def nullPeakNeg : Peak := ⟨0, some ⟨[-2, -1], [7, 7]⟩, none, "u", none, none, [], false⟩

unseal Rat.add Rat.mul Rat.sub Rat.inv in
theorem null_mass_nearest_counterexample :
    nullPeakNeg.null_mass (-1) =
        .ok ⟨0, some ⟨[-2, -1], [0, 7]⟩, none, "-1--2-0-0.00", none, none, [], false⟩ ∧
      |(-1 : ℚ) - (-1)| < |(-2 : ℚ) - (-1)| :=
  ⟨by decide, by decide⟩

/-- A peak with spectrum `([50, 60, 70], [1, 5, 3])`. -/
def nullPeakPos : Peak := ⟨0, some ⟨[50, 60, 70], [1, 5, 3]⟩, none, "u", none, none, [], false⟩

unseal Rat.add Rat.mul Rat.sub Rat.inv in
theorem null_mass_nearest_witness :
    nullPeakPos.null_mass 100 = .error (.indexError, nullPeakPos) ∧
      (∃ u, nullPeakPos.null_mass 61 = .ok { nullPeakPos with
        mass_spectrum := some ⟨[50, 60, 70],
          ([1, 5, 3] : List ℚ).set (nullScan 61 [50, 60, 70] 0 70 0) 0⟩,
        UID := u }) :=
  ⟨(null_mass_nearest nullPeakPos ⟨[50, 60, 70], [1, 5, 3]⟩ 100 50 70 rfl (by decide)
      (by decide) (by decide)).1 (by decide),
    ((null_mass_nearest nullPeakPos ⟨[50, 60, 70], [1, 5, 3]⟩ 61 50 70 rfl (by decide)
      (by decide) (by decide)).2 (by decide) (by decide) ⟨60, by decide, by decide⟩
      ⟨1, by decide, by decide⟩).2⟩

/-- C6: for a peak with a mass spectrum and `n ≥ 1`, `top_ions(n)` computes
exactly what the claim describes — pair intensities with masses, sort
ascending by intensity with ties broken by mass, take the last
`min n k` pairs, return their masses in that (ascending-intensity) order —
the sorted pair list being a sorted permutation of the zipped pairs; and for
index-aligned lists the result has `min n k` masses, so `n > k` returns all
`k` masses without error. -/
theorem top_ions_behavior :
    ∀ (p : Peak) (m : MassSpectrum) (n : ℕ), p.mass_spectrum = some m → 1 ≤ n →
      p.top_ions n = .ok (topIonsClaim m n) ∧
      List.Sorted lexLe ((m.mass_spec.zip m.mass_list).insertionSort lexLe) ∧
      ((m.mass_spec.zip m.mass_list).insertionSort lexLe).Perm (m.mass_spec.zip m.mass_list) ∧
      (m.mass_spec.length = m.mass_list.length →
        (topIonsClaim m n).length = min n m.mass_list.length) := by
  intro p m n hm hn
  refine ⟨?_, List.sorted_insertionSort lexLe _, List.perm_insertionSort lexLe _, ?_⟩
  · simp only [Peak.top_ions, hm, topIonsClaim]
    rw [if_neg (by omega : ¬ n = 0)]
    have harith : ((m.mass_spec.zip m.mass_list).insertionSort lexLe).length - n =
        ((m.mass_spec.zip m.mass_list).insertionSort lexLe).length -
          min n ((m.mass_spec.zip m.mass_list).insertionSort lexLe).length := by
      omega
    rw [harith]
  · intro hlen
    have hk : ((m.mass_spec.zip m.mass_list).insertionSort lexLe).length =
        m.mass_list.length := by
      rw [(List.perm_insertionSort lexLe _).length_eq, List.length_zip, hlen, min_self]
    simp only [topIonsClaim, List.length_map, List.length_drop, hk]
    omega

unseal Rat.add Rat.mul Rat.sub Rat.inv in
theorem top_ions_behavior_witness :
    thirdPeak.top_ions 5 = .ok (topIonsClaim ⟨[10, 20, 30], [3, 2, 1]⟩ 5) ∧
      (topIonsClaim ⟨[10, 20, 30], [3, 2, 1]⟩ 5).length =
        min 5 (MassSpectrum.mk [10, 20, 30] [3, 2, 1]).mass_list.length :=
  ⟨(top_ions_behavior thirdPeak ⟨[10, 20, 30], [3, 2, 1]⟩ 5 rfl (by decide)).1,
    (top_ions_behavior thirdPeak ⟨[10, 20, 30], [3, 2, 1]⟩ 5 rfl (by decide)).2.2.2 (by decide)⟩

/-- C9: for a peak with a non-empty mass spectrum, `top_ions(0)` returns the
masses of *all* points in ascending-intensity order — the Python slice
`[-0:]` denotes the whole sorted list — with length equal to the number of
masses, not the empty list. -/
theorem top_ions_zero_returns_all :
    ∀ (p : Peak) (m : MassSpectrum), p.mass_spectrum = some m →
      m.mass_spec.length = m.mass_list.length → m.mass_list ≠ [] →
      p.top_ions 0 =
        .ok (((m.mass_spec.zip m.mass_list).insertionSort lexLe).map Prod.snd) ∧
      (((m.mass_spec.zip m.mass_list).insertionSort lexLe).map Prod.snd).length =
        m.mass_list.length ∧
      ((m.mass_spec.zip m.mass_list).insertionSort lexLe).map Prod.snd ≠ [] := by
  intro p m hm hlen hne
  have hk : ((m.mass_spec.zip m.mass_list).insertionSort lexLe).length =
      m.mass_list.length := by
    rw [(List.perm_insertionSort lexLe _).length_eq, List.length_zip, hlen, min_self]
  refine ⟨?_, ?_, ?_⟩
  · simp [Peak.top_ions, hm]
  · simp [List.length_map, hk]
  · intro hcontra
    have hlen0 := congrArg List.length hcontra
    simp only [List.length_map, hk, List.length_nil] at hlen0
    exact hne (List.length_eq_zero.1 hlen0)

unseal Rat.add Rat.mul Rat.sub Rat.inv in
theorem top_ions_zero_returns_all_witness :
    nullPeakPos.top_ions 0 =
        .ok ((((MassSpectrum.mk [50, 60, 70] [1, 5, 3]).mass_spec.zip
          (MassSpectrum.mk [50, 60, 70] [1, 5, 3]).mass_list).insertionSort lexLe).map
            Prod.snd) ∧
      (((MassSpectrum.mk [50, 60, 70] [1, 5, 3]).mass_spec.zip
        (MassSpectrum.mk [50, 60, 70] [1, 5, 3]).mass_list).insertionSort lexLe).map
          Prod.snd ≠ [] :=
  ⟨(top_ions_zero_returns_all nullPeakPos (MassSpectrum.mk [50, 60, 70] [1, 5, 3]) rfl
      (by decide) (by decide)).1,
    (top_ions_zero_returns_all nullPeakPos (MassSpectrum.mk [50, 60, 70] [1, 5, 3]) rfl
      (by decide) (by decide)).2.2⟩

end PyMS
